import Mathlib

/-!
Verification of the polygon-billiards physics core (`src/main.py`).

The Python code works with `numpy` float pairs; the embedding models every
scalar as an exact rational (`ℚ`).  Square roots and trigonometric values are
irrational in general, so the embedding handles them as follows:

* comparisons of a Euclidean norm against a nonnegative constant are modelled
  by the equivalent comparison of squares (`‖v‖ < c ↔ ‖v‖² < c²` for `c ≥ 0`);
* where the code *uses* the value of a norm (normalising an axis, the drag
  vector, ...) the functions take the value as an explicit oracle argument
  (`ν : Vec → ℚ`, `len : ℚ`); theorems constrain the oracle exactly where the
  claim needs it;
* `math.cos`/`math.sin` become oracle functions `cosF sinF : ℚ → ℚ` threaded
  through `get_world_vertices`.

All state mutation becomes explicit state passing; a place where the Python
code would raise (e.g. `min`/`max`/support of an empty vertex list,
`np.dot(-, None)`) is modelled by `Option`.
-/

namespace Billiards

/-- A 2-D vector, componentwise exact rationals (models a `numpy` float pair). -/
abbrev Vec : Type := ℚ × ℚ

/-- Componentwise vector addition. -/
def vadd (a b : Vec) : Vec := (a.1 + b.1, a.2 + b.2)

/-- Componentwise vector subtraction. -/
def vsub (a b : Vec) : Vec := (a.1 - b.1, a.2 - b.2)

/-- Vector negation. -/
def vneg (a : Vec) : Vec := (-a.1, -a.2)

/-- Scalar multiple of a vector. -/
def smul (c : ℚ) (a : Vec) : Vec := (c * a.1, c * a.2)

/-- Dot product (`np.dot` on 2-vectors). -/
def dot (a b : Vec) : ℚ := a.1 * b.1 + a.2 * b.2

/-- Cross product in 2-D (the source's `cross_2d`). -/
def cross2d (a b : Vec) : ℚ := a.1 * b.2 - a.2 * b.1

/-- Squared Euclidean norm; `np.linalg.norm v < c` is modelled as
`normSq v < c^2` for constants `c ≥ 0`. -/
def normSq (a : Vec) : ℚ := a.1 ^ 2 + a.2 ^ 2

-- Table constants from the top of `src/main.py`.

def SCREEN_WIDTH : ℚ := 1000
def SCREEN_HEIGHT : ℚ := 600
def TABLE_WIDTH : ℚ := 800
def TABLE_HEIGHT : ℚ := 400
def TABLE_X : ℚ := (SCREEN_WIDTH - TABLE_WIDTH) / 2
def TABLE_Y : ℚ := (SCREEN_HEIGHT - TABLE_HEIGHT) / 2
def BORDER_SIZE : ℚ := 30
def HOLE_RADIUS : ℚ := 25

/-- The state of `class RigidBody` (the display-only `color` kept as an
abstract RGB triple). -/
structure Body where
  pos : Vec
  vel : Vec
  angle : ℚ
  ang_vel : ℚ
  mass : ℚ
  inv_mass : ℚ
  color : ℕ × ℕ × ℕ
  size : ℚ
  is_cue : Bool
  inertia : ℚ
  inv_inertia : ℚ
  local_vertices : List Vec
  deriving DecidableEq, Repr

/-- Constructor `RigidBody.__init__`.  `unitDir sides i` is the trigonometric oracle for
the vertex direction `(cos (2*pi*i/sides), sin (2*pi*i/sides))` (irrational in
general, hence supplied); `randSides` stands for the ambient
`random.randint(3, 6)` draw used for non-cue bodies. -/
def mkRigidBody (unitDir : ℕ → ℕ → Vec) (randSides : ℕ)
    (x y mass : ℚ) (color : ℕ × ℕ × ℕ) (shape_type : String) (size : ℚ) :
    Body :=
  let is_cue : Bool := shape_type = "cue"
  let inv_mass : ℚ := if 0 < mass then 1 / mass else 0
  let radius : ℚ := size / 2
  let inertia : ℚ := 1/2 * mass * radius ^ 2
  let inv_inertia : ℚ := if 0 < inertia then 1 / inertia else 0
  let sides : ℕ := if is_cue then 16 else randSides
  { pos := (x, y)
    vel := (0, 0)
    angle := 0
    ang_vel := 0
    mass := mass
    inv_mass := inv_mass
    color := color
    size := size
    is_cue := is_cue
    inertia := inertia
    inv_inertia := inv_inertia
    local_vertices := (List.range sides).map (fun i => smul radius (unitDir sides i)) }

/-- Embedding of `RigidBody.update(dt)`, line by line: integrate position/orientation,
damp, clamp to rest (norm test squared), then the four wall `if/elif` pairs. -/
def update (dt : ℚ) (body : Body) : Body :=
  let pos : Vec := vadd body.pos (smul dt body.vel)
  let angle : ℚ := body.angle + body.ang_vel * dt
  let vel : Vec := smul (985/1000) body.vel
  let ang_vel : ℚ := body.ang_vel * (98/100)
  let vel : Vec := if normSq vel < 2 ^ 2 then (0, 0) else vel
  let ang_vel : ℚ := if |ang_vel| < 1/10 then 0 else ang_vel
  let e_wall : ℚ := 8/10
  let px : ℚ × ℚ :=
    if pos.1 < TABLE_X + body.size / 2 then
      (TABLE_X + body.size / 2, vel.1 * -e_wall)
    else if pos.1 > TABLE_X + TABLE_WIDTH - body.size / 2 then
      (TABLE_X + TABLE_WIDTH - body.size / 2, vel.1 * -e_wall)
    else (pos.1, vel.1)
  let py : ℚ × ℚ :=
    if pos.2 < TABLE_Y + body.size / 2 then
      (TABLE_Y + body.size / 2, vel.2 * -e_wall)
    else if pos.2 > TABLE_Y + TABLE_HEIGHT - body.size / 2 then
      (TABLE_Y + TABLE_HEIGHT - body.size / 2, vel.2 * -e_wall)
    else (pos.2, vel.2)
  { body with
      pos := (px.1, py.1)
      vel := (px.2, py.2)
      angle := angle
      ang_vel := ang_vel }

/-- Embedding of `RigidBody.get_world_vertices`: each local vertex rotated by the body's
angle (trig supplied by the oracles `cosF`, `sinF`) and translated by `pos`. -/
def get_world_vertices (cosF sinF : ℚ → ℚ) (b : Body) : List Vec :=
  let c := cosF b.angle
  let s := sinF b.angle
  b.local_vertices.map (fun v => vadd b.pos (c * v.1 - s * v.2, s * v.1 + c * v.2))

/-- Embedding of `get_axes(vertices)`: one outward edge normal per edge `(v[i], v[(i+1) % n])`,
normalised and kept only when its length is positive.  `ν` is the norm oracle
standing for `np.linalg.norm` (theorems never depend on its values beyond the
`length > 0` guard the code itself performs). -/
def get_axes (ν : Vec → ℚ) (vs : List Vec) : List Vec :=
  (List.range vs.length).filterMap (fun i =>
    let p1 := vs.getD i (0, 0)
    let p2 := vs.getD ((i + 1) % vs.length) (0, 0)
    let edge := vsub p1 p2
    let normal : Vec := (-edge.2, edge.1)
    let length := ν normal
    if 0 < length then some (smul (1 / length) normal) else none)

/-- Embedding of `project(vertices, axis)`: `(min, max)` of the vertex projections.  Python's
`min`/`max` raise on an empty list; the `[]` case returns `(0, 0)` and is ruled
out by the nonemptiness hypotheses of the theorems. -/
def project (vs : List Vec) (axis : Vec) : ℚ × ℚ :=
  match vs.map (fun v => dot v axis) with
  | [] => (0, 0)
  | d :: ds => (ds.foldl min d, ds.foldl max d)

/-- On axis `ax` the two projection intervals are disjoint
(`max_a < min_b or max_b < min_a` in the source). -/
def separatedOn (va vb : List Vec) (ax : Vec) : Prop :=
  (project va ax).2 < (project vb ax).1 ∨ (project vb ax).2 < (project va ax).1

instance (va vb : List Vec) (ax : Vec) : Decidable (separatedOn va vb ax) := by
  unfold separatedOn; infer_instance

/-- The interval overlap `min(max_a, max_b) - max(min_a, min_b)` on axis `ax`. -/
def overlapOn (va vb : List Vec) (ax : Vec) : ℚ :=
  min (project va ax).2 (project vb ax).2 - max (project va ax).1 (project vb ax).1

/-- The axis loop of `check_collision_sat`.  `float('inf')` / `None` of the
initial accumulator become `none`; the result is `none` exactly when some axis
separates (the early `return False, None, 0`). -/
def satLoop (va vb : List Vec) : List Vec → Option ℚ → Option Vec →
    Option (Option ℚ × Option Vec)
  | [], mo, cn => some (mo, cn)
  | ax :: rest, mo, cn =>
    let pa := project va ax
    let pb := project vb ax
    if pa.2 < pb.1 ∨ pb.2 < pa.1 then none
    else
      let ov := min pa.2 pb.2 - max pa.1 pb.1
      match mo with
      | none => satLoop va vb rest (some ov) (some ax)
      | some m =>
        if ov < m then satLoop va vb rest (some ov) (some ax)
        else satLoop va vb rest (some m) cn

/-- The candidate axis list of `check_collision_sat`:
`get_axes(verts_a) + get_axes(verts_b)`. -/
def satAxes (ν : Vec → ℚ) (cosF sinF : ℚ → ℚ) (a b : Body) : List Vec :=
  get_axes ν (get_world_vertices cosF sinF a) ++ get_axes ν (get_world_vertices cosF sinF b)

/-- Embedding of `check_collision_sat(body_a, body_b)`.  Returns `none` for the run that
would raise in Python (no axis ever recorded, then `np.dot(-, None)`). -/
def check_collision_sat (ν : Vec → ℚ) (cosF sinF : ℚ → ℚ) (a b : Body) :
    Option (Bool × Option Vec × ℚ) :=
  let va := get_world_vertices cosF sinF a
  let vb := get_world_vertices cosF sinF b
  match satLoop va vb (satAxes ν cosF sinF a b) none none with
  | none => some (false, none, 0)
  | some (some m, some cn) =>
    let n := if dot (vsub b.pos a.pos) cn < 0 then vneg cn else cn
    some (true, some n, m)
  | some _ => none

/-- Embedding of `get_support(vertices, direction)`: the vertex with the strictly largest
projection (first wins on ties); `none` on the empty list, where Python would
return `None` and the caller would subsequently raise. -/
def get_support (vs : List Vec) (d : Vec) : Option Vec :=
  (vs.foldl (fun best v =>
    let p := dot v d
    match best with
    | none => some (p, v)
    | some (bp, bv) => if p > bp then some (p, v) else some (bp, bv)) none).map
    Prod.snd

/-- The positional correction of `resolve_collision`: each body pushed
`depth * 0.5` along the normal, A backward and B forward. -/
def corrected_pair (a b : Body) (normal : Vec) (depth : ℚ) : Body × Body :=
  let move := smul (depth * (1/2)) normal
  ({ a with pos := vsub a.pos move }, { b with pos := vadd b.pos move })

/-- Contact-point selection of `resolve_collision` (on the already-corrected
bodies): support of A along `normal`, support of B along `-normal`, keeping the
candidate with the larger signed projection against the other body's centre. -/
def contact_point (cosF sinF : ℚ → ℚ) (a b : Body) (normal : Vec) : Option Vec :=
  match get_support (get_world_vertices cosF sinF a) normal,
        get_support (get_world_vertices cosF sinF b) (vneg normal) with
  | some ca, some cb =>
    let vals_a := dot (vsub ca b.pos) (vneg normal)
    let vals_b := dot (vsub cb a.pos) normal
    some (if vals_a > vals_b then ca else cb)
  | _, _ => none

/-- Velocity of a body at lever arm `r`:
`vel + (-ang_vel * r.y, ang_vel * r.x)`. -/
def contact_vel (b : Body) (r : Vec) : Vec :=
  vadd b.vel (-b.ang_vel * r.2, b.ang_vel * r.1)

/-- The relative normal velocity `vel_normal = dot(vel_b - vel_a, normal)` at
contact point `cp`. -/
def rel_normal_vel (a b : Body) (cp : Vec) (normal : Vec) : ℚ :=
  dot (vsub (contact_vel b (vsub cp b.pos)) (contact_vel a (vsub cp a.pos))) normal

/-- Embedding of `resolve_collision(body_a, body_b, normal, depth)`.  Pure state passing:
returns the pair of updated bodies, `none` where Python would raise (support
point of an empty vertex list). -/
def resolve_collision (cosF sinF : ℚ → ℚ) (a b : Body) (normal : Vec) (depth : ℚ) :
    Option (Body × Body) :=
  let total_inv := a.inv_mass + b.inv_mass
  if total_inv = 0 then some (a, b)
  else
    let a1 := (corrected_pair a b normal depth).1
    let b1 := (corrected_pair a b normal depth).2
    match contact_point cosF sinF a1 b1 normal with
    | none => none
    | some cp =>
      let r_a := vsub cp a1.pos
      let r_b := vsub cp b1.pos
      let vn := rel_normal_vel a1 b1 cp normal
      if 0 < vn then some (a1, b1)
      else
        let e : ℚ := 9/10
        let rn_a := cross2d r_a normal
        let rn_b := cross2d r_b normal
        let denom := total_inv + rn_a ^ 2 * a1.inv_inertia + rn_b ^ 2 * b1.inv_inertia
        let j := -(1 + e) * vn / denom
        let impulse := smul j normal
        some ({ a1 with
                  vel := vsub a1.vel (smul a1.inv_mass impulse)
                  ang_vel := a1.ang_vel - cross2d r_a impulse * a1.inv_inertia },
              { b1 with
                  vel := vadd b1.vel (smul b1.inv_mass impulse)
                  ang_vel := b1.ang_vel + cross2d r_b impulse * b1.inv_inertia })

/-- Embedding of `get_pockets()`: the six pocket centres, outer loop over `ys`, inner over `xs`. -/
def get_pockets : List Vec :=
  let xs : List ℚ := [TABLE_X + BORDER_SIZE, TABLE_X + TABLE_WIDTH / 2,
    TABLE_X + TABLE_WIDTH - BORDER_SIZE]
  let ys : List ℚ := [TABLE_Y + BORDER_SIZE, TABLE_Y + TABLE_HEIGHT - BORDER_SIZE]
  ys.flatMap (fun y => xs.map (fun x => (x, y)))

/-- Embedding of `check_pocket_fall(ball, pockets)`: some pocket centre closer than
`HOLE_RADIUS` (norm test squared). -/
def check_pocket_fall (ball : Body) (pockets : List Vec) : Bool :=
  pockets.any (fun p => normSq (vsub ball.pos p) < HOLE_RADIUS ^ 2)

/-- The cue respawn point `(TABLE_X + 200, TABLE_Y + TABLE_HEIGHT/2)`. -/
def spawn_pos : Vec := (TABLE_X + 200, TABLE_Y + TABLE_HEIGHT / 2)

/-- The cue-ball pocket handling of the main loop: reset to spawn, zero both
velocities. -/
def reset_cue (b : Body) : Body := { b with pos := spawn_pos, vel := (0, 0), ang_vel := 0 }

/-- The per-body scan of the main loop's physics section (lines 277–287):
update each body, then test pocket fall; a pocketed cue is reset in place, a
pocketed non-cue body is flagged for removal. -/
def pocket_scan (dt : ℚ) (balls : List Body) : List (Body × Bool) :=
  balls.map (fun ball =>
    let b := update dt ball
    if check_pocket_fall b get_pockets then
      if b.is_cue then (reset_cue b, false) else (b, true)
    else (b, false))

/-- Lines 277–290 of the main loop: the scan above followed by the deferred
removal of the flagged bodies. -/
def pocket_phase (dt : ℚ) (balls : List Body) : List Body :=
  ((pocket_scan dt balls).filter (fun p => !p.2)).map Prod.fst

/-- The drag-release handler (lines 269–273): cap the drag vector at magnitude
300, then scale by 5.  `len` is the caller-supplied value of
`np.linalg.norm(force)` (theorems constrain it to be the exact norm). -/
def strike (d : Vec) (len : ℚ) : Vec :=
  let force := if 300 < len then smul 300 (smul (1 / len) d) else d
  smul 5 force

/-! Stage functions following the wording of spec §4.1 (claim C4): the four
steps of `integrate(dt)` as separate transformations, to be compared with the
source's interleaved `update`. -/

/-- Spec step 1: translate position by `velocity * dt`, advance orientation by
`angular_velocity * dt`. -/
def integrateStage (dt : ℚ) (b : Body) : Body :=
  { b with pos := vadd b.pos (smul dt b.vel), angle := b.angle + b.ang_vel * dt }

/-- Spec step 2: multiply velocity by 0.985 and angular velocity by 0.98. -/
def dampStage (b : Body) : Body :=
  { b with vel := smul (985/1000) b.vel, ang_vel := b.ang_vel * (98/100) }

/-- Spec step 3: zero the velocity if its magnitude is below 2.0 (norm test
squared) and the angular velocity if its absolute value is below 0.1. -/
def restStage (b : Body) : Body :=
  { b with
      vel := if normSq b.vel < 2 ^ 2 then (0, 0) else b.vel
      ang_vel := if |b.ang_vel| < 1/10 then 0 else b.ang_vel }

/-- Spec step 4: wall containment against the inset table rectangle, one
`if/elif` pair per axis, restitution 0.8. -/
def wallStage (b : Body) : Body :=
  let e_wall : ℚ := 8/10
  let px : ℚ × ℚ :=
    if b.pos.1 < TABLE_X + b.size / 2 then
      (TABLE_X + b.size / 2, b.vel.1 * -e_wall)
    else if b.pos.1 > TABLE_X + TABLE_WIDTH - b.size / 2 then
      (TABLE_X + TABLE_WIDTH - b.size / 2, b.vel.1 * -e_wall)
    else (b.pos.1, b.vel.1)
  let py : ℚ × ℚ :=
    if b.pos.2 < TABLE_Y + b.size / 2 then
      (TABLE_Y + b.size / 2, b.vel.2 * -e_wall)
    else if b.pos.2 > TABLE_Y + TABLE_HEIGHT - b.size / 2 then
      (TABLE_Y + TABLE_HEIGHT - b.size / 2, b.vel.2 * -e_wall)
    else (b.pos.2, b.vel.2)
  { b with pos := (px.1, py.1), vel := (px.2, py.2) }

/-! Concrete sample data used by the witness theorems.  `cosOne`/`sinZero` are
legitimate trig oracles for bodies whose angle is `0`. -/

/-- Trig oracle: constant cosine 1 (exact at angle 0). -/
def cosOne : ℚ → ℚ := fun _ => 1

/-- Trig oracle: constant sine 0 (exact at angle 0). -/
def sinZero : ℚ → ℚ := fun _ => 0

/-- Norm oracle assigning every vector length 1 (the structural SAT theorems
do not constrain the oracle). -/
def normOne : Vec → ℚ := fun _ => 1

/-- Sample body: a moving triangle in mid-table. -/
def ballMoving : Body :=
  { pos := (300, 250), vel := (7, -1), angle := 0, ang_vel := 3, mass := 20,
    inv_mass := 1/20, color := (0, 0, 0), size := 35, is_cue := false,
    inertia := 6125/4, inv_inertia := 4/6125,
    local_vertices := [(1, 0), (0, 1), (-1, 0)] }

/-- Sample body: at rest exactly on the left inset wall boundary
(`TABLE_X + size/2 = 235/2`). -/
def ballBoundary : Body :=
  { pos := (235/2, 300), vel := (0, 0), angle := 0, ang_vel := 0, mass := 20,
    inv_mass := 1/20, color := (0, 0, 0), size := 35, is_cue := false,
    inertia := 6125/4, inv_inertia := 4/6125,
    local_vertices := [(1, 0), (0, 1), (-1, 0)] }

/-- Sample body: the cue ball at rest on the top-middle pocket centre
`(500, 130)`. -/
def cueAtPocket : Body :=
  { pos := (500, 130), vel := (0, 0), angle := 0, ang_vel := 0, mass := 20,
    inv_mass := 1/20, color := (255, 255, 255), size := 35, is_cue := true,
    inertia := 6125/4, inv_inertia := 4/6125,
    local_vertices := [(1, 0), (0, 1), (-1, 0), (0, -1)] }

/-- Sample body: a non-cue ball at rest on the pocket centre `(500, 130)`. -/
def ballAtPocket : Body :=
  { pos := (500, 130), vel := (0, 0), angle := 0, ang_vel := 0, mass := 20,
    inv_mass := 1/20, color := (90, 90, 90), size := 35, is_cue := false,
    inertia := 6125/4, inv_inertia := 4/6125,
    local_vertices := [(1, 0), (0, 1), (-1, 0), (0, -1)] }

/-- Sample diamond body A for collision witnesses: mass 2, moving right. -/
def diamondA : Body :=
  { pos := (0, 0), vel := (4, 0), angle := 0, ang_vel := 0, mass := 2,
    inv_mass := 1/2, color := (0, 0, 0), size := 2, is_cue := false,
    inertia := 1, inv_inertia := 1,
    local_vertices := [(1, 0), (0, 1), (-1, 0), (0, -1)] }

/-- Sample diamond body B for collision witnesses: mass 4, at rest, to the
right of `diamondA`. -/
def diamondB : Body :=
  { pos := (3/2, 0), vel := (0, 0), angle := 0, ang_vel := 0, mass := 4,
    inv_mass := 1/4, color := (0, 0, 0), size := 2, is_cue := false,
    inertia := 2, inv_inertia := 1/2,
    local_vertices := [(1, 0), (0, 1), (-1, 0), (0, -1)] }

/-- Sample diamond body B moving away to the right (separating pair with
`diamondA`). -/
def diamondBFleeing : Body :=
  { pos := (3/2, 0), vel := (10, 0), angle := 0, ang_vel := 0, mass := 4,
    inv_mass := 1/4, color := (0, 0, 0), size := 2, is_cue := false,
    inertia := 2, inv_inertia := 1/2,
    local_vertices := [(1, 0), (0, 1), (-1, 0), (0, -1)] }

/-- Sample immovable diamond (zero-mass sentinel: `inv_mass = 0`,
`inv_inertia = 0`). -/
def diamondWall : Body :=
  { pos := (0, 0), vel := (0, 0), angle := 0, ang_vel := 0, mass := 0,
    inv_mass := 0, color := (0, 0, 0), size := 2, is_cue := false,
    inertia := 0, inv_inertia := 0,
    local_vertices := [(1, 0), (0, 1), (-1, 0), (0, -1)] }

/-- Sample square body A (side 2, centred at the origin) for the SAT witness. -/
def squareA : Body :=
  { pos := (0, 0), vel := (0, 0), angle := 0, ang_vel := 0, mass := 2,
    inv_mass := 1/2, color := (0, 0, 0), size := 2, is_cue := false,
    inertia := 1, inv_inertia := 1,
    local_vertices := [(1, 1), (-1, 1), (-1, -1), (1, -1)] }

/-- Sample square body B, overlapping `squareA` from the right. -/
def squareB : Body :=
  { pos := (3/2, 0), vel := (0, 0), angle := 0, ang_vel := 0, mass := 2,
    inv_mass := 1/2, color := (0, 0, 0), size := 2, is_cue := false,
    inertia := 1, inv_inertia := 1,
    local_vertices := [(1, 1), (-1, 1), (-1, -1), (1, -1)] }

/-- Concrete output pair of `resolve_collision` on `diamondA`/`diamondB`
(evaluated in the C1 witness). -/
def resolvedAB : Body × Body :=
  (resolve_collision cosOne sinZero diamondA diamondB (1, 0) (1/2)).getD
    (diamondA, diamondB)

/-- Concrete output pair of `resolve_collision` on `diamondA`/`diamondBFleeing`
(evaluated in the C3 witness). -/
def resolvedFleeing : Body × Body :=
  (resolve_collision cosOne sinZero diamondA diamondBFleeing (1, 0) (1/2)).getD
    (diamondA, diamondBFleeing)

/-- Concrete output pair of `resolve_collision` on `diamondWall`/`diamondB`
(evaluated in the C8 witness). -/
def resolvedWall : Body × Body :=
  (resolve_collision cosOne sinZero diamondWall diamondB (1, 0) 2).getD
    (diamondWall, diamondB)

section Theorems

/-- Claim C4: for every body and positive `dt`, `update dt` is exactly the
composition of the four spec stages, in order — integrate, damp, rest-clamp,
and only then the wall-containment step. -/
theorem update_eq_stages (dt : ℚ) (b : Body) (hdt : 0 < dt) :
    update dt b = wallStage (restStage (dampStage (integrateStage dt b))) := by
  rfl

/-- Witness for C4 at `dt = 1` and a concrete body. -/
theorem update_eq_stages_witness :
    (0 : ℚ) < 1 ∧
      update 1 ballMoving =
        wallStage (restStage (dampStage (integrateStage 1 ballMoving))) :=
  ⟨by norm_num, update_eq_stages 1 ballMoving (by norm_num)⟩

/-- Helper: a body at rest (zero linear and angular velocity) whose position is
inside the closed inset wall rectangle is a fixed point of `update`. -/
theorem update_rest_fixed (dt : ℚ) (b : Body)
    (hv : b.vel = (0, 0)) (ha : b.ang_vel = 0)
    (hx1 : TABLE_X + b.size / 2 ≤ b.pos.1)
    (hx2 : b.pos.1 ≤ TABLE_X + TABLE_WIDTH - b.size / 2)
    (hy1 : TABLE_Y + b.size / 2 ≤ b.pos.2)
    (hy2 : b.pos.2 ≤ TABLE_Y + TABLE_HEIGHT - b.size / 2) :
    update dt b = b := by
  obtain ⟨pos, vel, angle, ang_vel, mass, inv_mass, color, size, is_cue,
    inertia, inv_inertia, lv⟩ := b
  simp only at hv ha hx1 hx2 hy1 hy2
  subst hv ha
  simp only [update, vadd, smul, normSq, mul_zero, add_zero, zero_mul,
    abs_zero]
  norm_num
  rw [if_neg (not_lt.mpr hx1), if_neg (not_lt.mpr hx2),
    if_neg (not_lt.mpr hy1), if_neg (not_lt.mpr hy2)]
  simp

/-- Claim C9: a body resting exactly on one of the inset wall boundaries (and
otherwise inside the table) with zero velocity and angular velocity stays at
that position with zero velocity after one `update` — the clamp does not move
a resting boundary body. -/
theorem update_boundary_idempotent (dt : ℚ) (b : Body)
    (hv : b.vel = (0, 0)) (ha : b.ang_vel = 0)
    (hx1 : TABLE_X + b.size / 2 ≤ b.pos.1)
    (hx2 : b.pos.1 ≤ TABLE_X + TABLE_WIDTH - b.size / 2)
    (hy1 : TABLE_Y + b.size / 2 ≤ b.pos.2)
    (hy2 : b.pos.2 ≤ TABLE_Y + TABLE_HEIGHT - b.size / 2)
    (hbd : b.pos.1 = TABLE_X + b.size / 2 ∨
      b.pos.1 = TABLE_X + TABLE_WIDTH - b.size / 2 ∨
      b.pos.2 = TABLE_Y + b.size / 2 ∨
      b.pos.2 = TABLE_Y + TABLE_HEIGHT - b.size / 2) :
    (update dt b).pos = b.pos ∧ (update dt b).vel = (0, 0) := by
  rw [update_rest_fixed dt b hv ha hx1 hx2 hy1 hy2]
  exact ⟨rfl, hv⟩

/-- Witness for C9: a concrete resting body on the left wall boundary. -/
theorem update_boundary_idempotent_witness :
    (update 1 ballBoundary).pos = ballBoundary.pos ∧
      (update 1 ballBoundary).vel = (0, 0) :=
  update_boundary_idempotent 1 ballBoundary rfl rfl
    (by norm_num [TABLE_X, SCREEN_WIDTH, TABLE_WIDTH, ballBoundary])
    (by norm_num [TABLE_X, SCREEN_WIDTH, TABLE_WIDTH, ballBoundary])
    (by norm_num [TABLE_Y, SCREEN_HEIGHT, TABLE_HEIGHT, ballBoundary])
    (by norm_num [TABLE_Y, SCREEN_HEIGHT, TABLE_HEIGHT, ballBoundary])
    (Or.inl (by norm_num [TABLE_X, SCREEN_WIDTH, TABLE_WIDTH, ballBoundary]))

/-- Claim C10: whenever the body fits the table (`size ≤` both table
dimensions), a single `update` always leaves its position inside the inset
table rectangle, however far the velocity carried it. -/
theorem update_pos_in_table (dt : ℚ) (b : Body)
    (hw : b.size ≤ TABLE_WIDTH) (hh : b.size ≤ TABLE_HEIGHT) (hdt : 0 ≤ dt) :
    TABLE_X + b.size / 2 ≤ (update dt b).pos.1 ∧
      (update dt b).pos.1 ≤ TABLE_X + TABLE_WIDTH - b.size / 2 ∧
      TABLE_Y + b.size / 2 ≤ (update dt b).pos.2 ∧
      (update dt b).pos.2 ≤ TABLE_Y + TABLE_HEIGHT - b.size / 2 := by
  simp only [update, TABLE_X, TABLE_Y, TABLE_WIDTH, TABLE_HEIGHT,
    SCREEN_WIDTH, SCREEN_HEIGHT] at hw hh ⊢
  refine ⟨?_, ?_, ?_, ?_⟩ <;> split_ifs <;> simp_all <;> linarith

/-- Witness for C10 at `dt = 1` on a concrete moving body. -/
theorem update_pos_in_table_witness :
    TABLE_X + ballMoving.size / 2 ≤ (update 1 ballMoving).pos.1 ∧
      (update 1 ballMoving).pos.1 ≤ TABLE_X + TABLE_WIDTH - ballMoving.size / 2 ∧
      TABLE_Y + ballMoving.size / 2 ≤ (update 1 ballMoving).pos.2 ∧
      (update 1 ballMoving).pos.2 ≤ TABLE_Y + TABLE_HEIGHT - ballMoving.size / 2 :=
  update_pos_in_table 1 ballMoving
    (by norm_num [ballMoving, TABLE_WIDTH])
    (by norm_num [ballMoving, TABLE_HEIGHT])
    (by norm_num)

/-- Claim C6: with `len` the exact norm of the drag vector `d`, the strike
velocity is `d * 5` when `|d| ≤ 300` and `(d/|d|) * 300 * 5` when `|d| > 300`;
its squared magnitude never exceeds `1500²` (and equals it exactly in the
capped branch), and a zero drag vector yields zero velocity with the
normalising branch untaken. -/
theorem strike_spec (d : Vec) (len : ℚ) (hlen0 : 0 ≤ len)
    (hlen : len ^ 2 = normSq d) :
    (normSq d ≤ 300 ^ 2 → strike d len = smul 5 d) ∧
      (300 ^ 2 < normSq d →
        strike d len = smul 5 (smul 300 (smul (1 / len) d)) ∧
          normSq (strike d len) = 1500 ^ 2) ∧
      normSq (strike d len) ≤ 1500 ^ 2 ∧
      (d = (0, 0) → strike d len = (0, 0)) := by
  have hiff : 300 < len ↔ 300 ^ 2 < normSq d := by
    rw [← hlen]
    constructor
    · intro h
      have : (300 : ℚ) ^ 2 < len ^ 2 := by nlinarith
      exact this
    · intro h
      nlinarith
  refine ⟨?_, ?_, ?_, ?_⟩
  · intro hle
    have : ¬ 300 < len := by
      intro h
      exact absurd hle (not_le.mpr (hiff.mp h))
    simp [strike, this]
  · intro hgt
    have h300 : 300 < len := hiff.mpr hgt
    have hne : len ≠ 0 := by positivity
    refine ⟨by simp [strike, h300], ?_⟩
    have hns : normSq d = len ^ 2 := hlen.symm
    simp only [strike, if_pos h300, smul, normSq] at hns ⊢
    field_simp
    nlinarith [hns]
  · by_cases h300 : 300 < len
    · have hne : len ≠ 0 := by positivity
      have hns : normSq d = len ^ 2 := hlen.symm
      simp only [strike, if_pos h300, smul, normSq] at hns ⊢
      have : (5 * (300 * (1 / len * d.1))) ^ 2 + (5 * (300 * (1 / len * d.2))) ^ 2
          = 1500 ^ 2 * (d.1 ^ 2 + d.2 ^ 2) / len ^ 2 := by
        field_simp
        ring
      rw [this, hns]
      rw [mul_div_assoc]
      rw [div_self (by positivity)]
      norm_num
    · have hle : normSq d ≤ 300 ^ 2 := by
        rw [← hlen]
        nlinarith [not_lt.mp h300]
      simp only [strike, if_neg h300, smul, normSq] at hle ⊢
      nlinarith [hle]
  · intro h0
    subst h0
    have : ¬ 300 < len := by
      intro h
      rw [normSq] at hlen
      simp at hlen
      nlinarith
    simp [strike, this, smul]

/-- Witness for C6 at the drag vector `(400, 300)` of exact norm 500. -/
theorem strike_spec_witness :
    (0 : ℚ) ≤ 500 ∧ (500 : ℚ) ^ 2 = normSq ((400 : ℚ), (300 : ℚ)) ∧
      ((normSq ((400 : ℚ), (300 : ℚ)) ≤ 300 ^ 2 →
          strike (400, 300) 500 = smul 5 (400, 300)) ∧
        (300 ^ 2 < normSq ((400 : ℚ), (300 : ℚ)) →
          strike (400, 300) 500 = smul 5 (smul 300 (smul (1 / 500) (400, 300))) ∧
            normSq (strike (400, 300) 500) = 1500 ^ 2) ∧
        normSq (strike (400, 300) 500) ≤ 1500 ^ 2 ∧
        (((400 : ℚ), (300 : ℚ)) = (0, 0) → strike (400, 300) 500 = (0, 0))) :=
  ⟨by norm_num, by norm_num [normSq],
    strike_spec (400, 300) 500 (by norm_num) (by norm_num [normSq])⟩

/-- Counterexample to C7 as stated: constructing a body with mass 0 is not
rejected — it completes normally and yields the immovable sentinel
(`inv_mass = 0`, `inv_inertia = 0`), this explicit record. -/
theorem mk_zero_mass_not_rejected :
    mkRigidBody (fun _ _ => (1, 0)) 4 50 60 0 (1, 2, 3) "poly" 30 =
      { pos := (50, 60), vel := (0, 0), angle := 0, ang_vel := 0, mass := 0,
        inv_mass := 0, color := (1, 2, 3), size := 30, is_cue := false,
        inertia := 0, inv_inertia := 0,
        local_vertices := [(15, 0), (15, 0), (15, 0), (15, 0)] } := by
  norm_num [mkRigidBody, smul, List.range_succ]
  decide

/-- Claim C7 amended: the constructor never rejects a configuration; it is
total, stores the given mass, and follows the sign convention — `mass > 0`
gives `inv_mass = 1/mass`, while `mass ≤ 0` gives the immovable sentinel
`inv_mass = 0` and `inv_inertia = 0`. -/
theorem mkRigidBody_mass_convention (unitDir : ℕ → ℕ → Vec) (randSides : ℕ)
    (x y mass : ℚ) (color : ℕ × ℕ × ℕ) (st : String) (size : ℚ) :
    (mkRigidBody unitDir randSides x y mass color st size).mass = mass ∧
      (mkRigidBody unitDir randSides x y mass color st size).inv_mass =
        (if 0 < mass then 1 / mass else 0) ∧
      (mass ≤ 0 →
        (mkRigidBody unitDir randSides x y mass color st size).inv_mass = 0 ∧
          (mkRigidBody unitDir randSides x y mass color st size).inv_inertia = 0) := by
  refine ⟨rfl, rfl, fun hm => ⟨?_, ?_⟩⟩
  · simp only [mkRigidBody]
    rw [if_neg (not_lt.mpr hm)]
  · simp only [mkRigidBody]
    have : ¬ 0 < 1/2 * mass * (size / 2) ^ 2 := by nlinarith [sq_nonneg (size / 2)]
    rw [if_neg this]

/-- Witness for C7's amended claim at mass `-3`. -/
theorem mkRigidBody_mass_convention_witness :
    (mkRigidBody (fun _ _ => (1, 0)) 4 50 60 (-3) (1, 2, 3) "poly" 30).mass = -3 ∧
      (mkRigidBody (fun _ _ => (1, 0)) 4 50 60 (-3) (1, 2, 3) "poly" 30).inv_mass =
        (if 0 < (-3 : ℚ) then 1 / (-3 : ℚ) else 0) ∧
      ((-3 : ℚ) ≤ 0 →
        (mkRigidBody (fun _ _ => (1, 0)) 4 50 60 (-3) (1, 2, 3) "poly" 30).inv_mass = 0 ∧
          (mkRigidBody (fun _ _ => (1, 0)) 4 50 60 (-3) (1, 2, 3) "poly" 30).inv_inertia = 0) :=
  mkRigidBody_mass_convention (fun _ _ => (1, 0)) 4 50 60 (-3) (1, 2, 3) "poly" 30

/-- Helper: equal-and-opposite impulses scaled by the reciprocal masses cancel
in the mass-weighted velocity sum. -/
theorem momentum_cancel (ma mb : ℚ) (va vb imp : Vec)
    (hma : ma ≠ 0) (hmb : mb ≠ 0) :
    vadd (smul ma (vsub va (smul (1 / ma) imp)))
        (smul mb (vadd vb (smul (1 / mb) imp))) =
      vadd (smul ma va) (smul mb vb) := by
  simp only [vadd, vsub, smul, Prod.mk.injEq]
  constructor <;> field_simp <;> ring

/-- Claim C1: when both bodies are movable with `inv_mass = 1/mass`, a
completed `resolve_collision` call conserves the total linear momentum
`mass_A * vel_A + mass_B * vel_B` (in every branch: the impulse is applied with
opposite signs scaled by the reciprocal masses). -/
theorem resolve_conserves_momentum (cosF sinF : ℚ → ℚ) (a b a2 b2 : Body)
    (normal : Vec) (depth : ℚ)
    (hma : 0 < a.mass) (hmb : 0 < b.mass)
    (hia : a.inv_mass = 1 / a.mass) (hib : b.inv_mass = 1 / b.mass)
    (hres : resolve_collision cosF sinF a b normal depth = some (a2, b2)) :
    vadd (smul a.mass a2.vel) (smul b.mass b2.vel) =
      vadd (smul a.mass a.vel) (smul b.mass b.vel) := by
  simp only [resolve_collision] at hres
  split at hres
  · simp only [Option.some.injEq, Prod.mk.injEq] at hres
    obtain ⟨rfl, rfl⟩ := hres
    rfl
  · split at hres
    · exact absurd hres (by simp)
    · split at hres
      · simp only [Option.some.injEq, Prod.mk.injEq] at hres
        obtain ⟨rfl, rfl⟩ := hres
        simp [corrected_pair]
      · simp only [Option.some.injEq, Prod.mk.injEq] at hres
        obtain ⟨rfl, rfl⟩ := hres
        simp only [corrected_pair, hia, hib]
        exact momentum_cancel a.mass b.mass a.vel b.vel _
          (ne_of_gt hma) (ne_of_gt hmb)

/-- Witness for C1 on the concrete colliding pair `diamondA`/`diamondB`. -/
theorem resolve_conserves_momentum_witness :
    vadd (smul diamondA.mass resolvedAB.1.vel) (smul diamondB.mass resolvedAB.2.vel) =
      vadd (smul diamondA.mass diamondA.vel) (smul diamondB.mass diamondB.vel) :=
  resolve_conserves_momentum cosOne sinZero diamondA diamondB
    resolvedAB.1 resolvedAB.2 (1, 0) (1/2)
    (by norm_num [diamondA]) (by norm_num [diamondB])
    (by norm_num [diamondA]) (by norm_num [diamondB])
    (by norm_num [resolvedAB, resolve_collision, corrected_pair, contact_point,
      get_support, get_world_vertices, contact_vel, rel_normal_vel, cross2d,
      dot, vadd, vsub, vneg, smul, diamondA, diamondB, cosOne, sinZero])

/-- Claim C3: if the relative contact-point velocity along the normal (as the
code computes it, on the positionally corrected bodies) is strictly positive,
`resolve_collision` leaves both bodies' velocities and angular velocities
unchanged. -/
theorem resolve_separating_no_impulse (cosF sinF : ℚ → ℚ) (a b a2 b2 : Body)
    (normal : Vec) (depth : ℚ) (cp : Vec)
    (hcp : contact_point cosF sinF (corrected_pair a b normal depth).1
      (corrected_pair a b normal depth).2 normal = some cp)
    (hvn : 0 < rel_normal_vel (corrected_pair a b normal depth).1
      (corrected_pair a b normal depth).2 cp normal)
    (hres : resolve_collision cosF sinF a b normal depth = some (a2, b2)) :
    a2.vel = a.vel ∧ a2.ang_vel = a.ang_vel ∧
      b2.vel = b.vel ∧ b2.ang_vel = b.ang_vel := by
  simp only [resolve_collision] at hres
  split at hres
  · simp only [Option.some.injEq, Prod.mk.injEq] at hres
    obtain ⟨rfl, rfl⟩ := hres
    exact ⟨rfl, rfl, rfl, rfl⟩
  · rw [hcp] at hres
    simp only at hres
    rw [if_pos hvn] at hres
    simp only [Option.some.injEq, Prod.mk.injEq] at hres
    obtain ⟨rfl, rfl⟩ := hres
    simp [corrected_pair]

/-- Witness for C3 on the separating pair `diamondA`/`diamondBFleeing`. -/
theorem resolve_separating_no_impulse_witness :
    resolvedFleeing.1.vel = diamondA.vel ∧
      resolvedFleeing.1.ang_vel = diamondA.ang_vel ∧
      resolvedFleeing.2.vel = diamondBFleeing.vel ∧
      resolvedFleeing.2.ang_vel = diamondBFleeing.ang_vel :=
  resolve_separating_no_impulse cosOne sinZero diamondA diamondBFleeing
    resolvedFleeing.1 resolvedFleeing.2 (1, 0) (1/2)
    ((3/4, 0))
    (by norm_num [contact_point, corrected_pair, get_support,
      get_world_vertices, dot, vadd, vsub, vneg, smul, diamondA,
      diamondBFleeing, cosOne, sinZero])
    (by norm_num [rel_normal_vel, corrected_pair, contact_vel, dot, vadd,
      vsub, smul, diamondA, diamondBFleeing])
    (by norm_num [resolvedFleeing, resolve_collision, corrected_pair,
      contact_point, get_support, get_world_vertices, contact_vel,
      rel_normal_vel, cross2d, dot, vadd, vsub, vneg, smul, diamondA,
      diamondBFleeing, cosOne, sinZero])

/-- Counterexample to C8 as stated: `resolve_collision` does move a body with
`inv_mass = 0` — the positional correction shifts `diamondWall` from `(0,0)`
to `(-1,0)` even though the other body is the only movable one. -/
theorem resolve_moves_immovable_body :
    diamondWall.inv_mass = 0 ∧ diamondB.inv_mass ≠ 0 ∧
      Option.map (fun p => p.1.pos)
        (resolve_collision cosOne sinZero diamondWall diamondB (1, 0) 2) =
        some ((-1 : ℚ), (0 : ℚ)) ∧
      diamondWall.pos = ((0 : ℚ), (0 : ℚ)) ∧
      (((-1 : ℚ), (0 : ℚ)) : Vec) ≠ ((0 : ℚ), (0 : ℚ)) := by
  refine ⟨rfl, by norm_num [diamondB], ?_, rfl, by norm_num⟩
  norm_num [resolve_collision, corrected_pair, contact_point, get_support,
    get_world_vertices, contact_vel, rel_normal_vel, cross2d, dot, vadd,
    vsub, vneg, smul, diamondWall, diamondB, cosOne, sinZero]

/-- Claim C8 amended: a body with `inv_mass = 0` (and, per the constructor's
convention, `inv_inertia = 0`) colliding with a movable body receives no
impulse — velocity, angular velocity and orientation are unchanged — but its
position is still shifted by the `depth/2` positional correction. -/
theorem resolve_immovable_velocities_unchanged (cosF sinF : ℚ → ℚ)
    (a b a2 b2 : Body) (normal : Vec) (depth : ℚ)
    (hza : a.inv_mass = 0) (hzi : a.inv_inertia = 0) (hbm : b.inv_mass ≠ 0)
    (hres : resolve_collision cosF sinF a b normal depth = some (a2, b2)) :
    a2.vel = a.vel ∧ a2.ang_vel = a.ang_vel ∧ a2.angle = a.angle ∧
      a2.pos = vsub a.pos (smul (depth * (1/2)) normal) := by
  simp only [resolve_collision] at hres
  split at hres
  · rename_i h
    rw [hza, zero_add] at h
    exact absurd h hbm
  · split at hres
    · exact absurd hres (by simp)
    · split at hres
      · simp only [Option.some.injEq, Prod.mk.injEq] at hres
        obtain ⟨rfl, rfl⟩ := hres
        exact ⟨rfl, rfl, rfl, rfl⟩
      · simp only [Option.some.injEq, Prod.mk.injEq] at hres
        obtain ⟨rfl, rfl⟩ := hres
        simp [corrected_pair, hza, hzi, smul, vsub, vadd, zero_mul,
          mul_zero, sub_zero]

/-- Witness for C8's amended claim on `diamondWall`/`diamondB`. -/
theorem resolve_immovable_velocities_unchanged_witness :
    resolvedWall.1.vel = diamondWall.vel ∧
      resolvedWall.1.ang_vel = diamondWall.ang_vel ∧
      resolvedWall.1.angle = diamondWall.angle ∧
      resolvedWall.1.pos = vsub diamondWall.pos (smul (2 * (1/2)) (1, 0)) :=
  resolve_immovable_velocities_unchanged cosOne sinZero diamondWall diamondB
    resolvedWall.1 resolvedWall.2 (1, 0) 2
    rfl rfl (by norm_num [diamondB])
    (by norm_num [resolvedWall, resolve_collision, corrected_pair,
      contact_point, get_support, get_world_vertices, contact_vel,
      rel_normal_vel, cross2d, dot, vadd, vsub, vneg, smul, diamondWall,
      diamondB, cosOne, sinZero])

/-- Claim C5: a body resting exactly on a pocket centre (and inside the wall
rectangle, so `update` does not move it) is handled by the pocket phase of the
step: a non-cue body is gone from the collection once the deferred removals
are applied, while the cue body stays, reset to the spawn point with zero
velocities; bodies before and after it in the scan are processed normally. -/
theorem pocket_phase_spec (dt : ℚ) (pre post : List Body) (b : Body)
    (hv : b.vel = (0, 0)) (ha : b.ang_vel = 0)
    (hx1 : TABLE_X + b.size / 2 ≤ b.pos.1)
    (hx2 : b.pos.1 ≤ TABLE_X + TABLE_WIDTH - b.size / 2)
    (hy1 : TABLE_Y + b.size / 2 ≤ b.pos.2)
    (hy2 : b.pos.2 ≤ TABLE_Y + TABLE_HEIGHT - b.size / 2)
    (hp : b.pos ∈ get_pockets) :
    (b.is_cue = false →
      pocket_phase dt (pre ++ b :: post) = pocket_phase dt (pre ++ post)) ∧
    (b.is_cue = true →
      pocket_phase dt (pre ++ b :: post) =
        pocket_phase dt pre ++ reset_cue b :: pocket_phase dt post) := by
  have hupd : update dt b = b := update_rest_fixed dt b hv ha hx1 hx2 hy1 hy2
  have hfall : check_pocket_fall b get_pockets = true := by
    simp only [check_pocket_fall, List.any_eq_true, decide_eq_true_eq]
    refine ⟨b.pos, hp, ?_⟩
    simp [vsub, normSq, HOLE_RADIUS]
  constructor <;> intro hcue <;>
    simp [pocket_phase, pocket_scan, List.map_append, List.filter_append,
      List.map_cons, List.filter_cons, hupd, hfall, hcue]

/-- Witness for C5: the cue ball resting on the pocket centre `(500, 130)`. -/
theorem pocket_phase_spec_witness :
    (cueAtPocket.is_cue = false →
      pocket_phase 1 ([] ++ cueAtPocket :: []) = pocket_phase 1 ([] ++ [])) ∧
    (cueAtPocket.is_cue = true →
      pocket_phase 1 ([] ++ cueAtPocket :: []) =
        pocket_phase 1 [] ++ reset_cue cueAtPocket :: pocket_phase 1 []) :=
  pocket_phase_spec 1 [] [] cueAtPocket rfl rfl
    (by norm_num [TABLE_X, SCREEN_WIDTH, TABLE_WIDTH, cueAtPocket])
    (by norm_num [TABLE_X, SCREEN_WIDTH, TABLE_WIDTH, cueAtPocket])
    (by norm_num [TABLE_Y, SCREEN_HEIGHT, TABLE_HEIGHT, cueAtPocket])
    (by norm_num [TABLE_Y, SCREEN_HEIGHT, TABLE_HEIGHT, cueAtPocket])
    (by norm_num [get_pockets, cueAtPocket, TABLE_X, TABLE_Y, TABLE_WIDTH,
      TABLE_HEIGHT, SCREEN_WIDTH, SCREEN_HEIGHT, BORDER_SIZE])

/-- Helper: negating the right argument negates the dot product. -/
theorem dot_vneg_right (u v : Vec) : dot u (vneg v) = -(dot u v) := by
  simp only [dot, vneg]
  ring

/-- Helper: `satLoop` unfolding on a separating axis — the early exit. -/
theorem satLoop_cons_sep (va vb ax : _) (rest : List Vec) (mo : Option ℚ)
    (cn : Option Vec) (hsep : separatedOn va vb ax) :
    satLoop va vb (ax :: rest) mo cn = none := by
  rw [separatedOn] at hsep
  simp only [satLoop]
  rw [if_pos hsep]

/-- Helper: `satLoop` unfolding on a non-separating axis when no overlap has
been recorded yet (`min_overlap` still infinite): the axis is always taken. -/
theorem satLoop_cons_inf (va vb ax : _) (rest : List Vec) (cn : Option Vec)
    (hsep : ¬ separatedOn va vb ax) :
    satLoop va vb (ax :: rest) none cn =
      satLoop va vb rest (some (overlapOn va vb ax)) (some ax) := by
  rw [separatedOn] at hsep
  simp only [satLoop, overlapOn]
  rw [if_neg hsep]

/-- Helper: `satLoop` unfolding on a non-separating axis with a recorded
minimum: the axis replaces the minimum exactly when its overlap is smaller. -/
theorem satLoop_cons_min (va vb ax : _) (rest : List Vec) (m : ℚ)
    (cn : Option Vec) (hsep : ¬ separatedOn va vb ax) :
    satLoop va vb (ax :: rest) (some m) cn =
      if overlapOn va vb ax < m then
        satLoop va vb rest (some (overlapOn va vb ax)) (some ax)
      else satLoop va vb rest (some m) cn := by
  rw [separatedOn] at hsep
  simp only [satLoop, overlapOn]
  rw [if_neg hsep]

/-- Helper: the axis loop returns the early exit `none` exactly when some axis
in the list separates the two projection sets. -/
theorem satLoop_eq_none_iff (va vb : List Vec) (axes : List Vec)
    (mo : Option ℚ) (cn : Option Vec) :
    satLoop va vb axes mo cn = none ↔ ∃ ax ∈ axes, separatedOn va vb ax := by
  induction axes generalizing mo cn with
  | nil => simp [satLoop]
  | cons ax rest ih =>
    by_cases hsep : separatedOn va vb ax
    · rw [satLoop_cons_sep va vb ax rest mo cn hsep]
      simp only [true_iff]
      exact ⟨ax, List.mem_cons_self ax rest, hsep⟩
    · have hmem : (∃ x ∈ rest, separatedOn va vb x) ↔
          ∃ x ∈ ax :: rest, separatedOn va vb x := by
        constructor
        · rintro ⟨x, hx, h⟩
          exact ⟨x, List.mem_cons_of_mem _ hx, h⟩
        · rintro ⟨x, hx, h⟩
          rcases List.mem_cons.mp hx with rfl | hx2
          · exact absurd h hsep
          · exact ⟨x, hx2, h⟩
      cases mo with
      | none =>
        rw [satLoop_cons_inf va vb ax rest cn hsep, ih]
        exact hmem
      | some m =>
        rw [satLoop_cons_min va vb ax rest m cn hsep]
        split
        · rw [ih]
          exact hmem
        · rw [ih]
          exact hmem

/-- Helper: on a list of non-separating axes the loop, started with a recorded
minimum, returns a recorded minimum that bounds every overlap from below and
is either the initial record or an overlap attained on some axis of the list. -/
theorem satLoop_min_spec (va vb : List Vec) (axes : List Vec) (m : ℚ) (n : Vec)
    (h : ∀ ax ∈ axes, ¬ separatedOn va vb ax) :
    ∃ m2 n2, satLoop va vb axes (some m) (some n) = some (some m2, some n2) ∧
      m2 ≤ m ∧ (∀ ax ∈ axes, m2 ≤ overlapOn va vb ax) ∧
      ((m2 = m ∧ n2 = n) ∨ ∃ ax ∈ axes, m2 = overlapOn va vb ax ∧ n2 = ax) := by
  induction axes generalizing m n with
  | nil =>
    exact ⟨m, n, by simp [satLoop], le_refl m, by simp, Or.inl ⟨rfl, rfl⟩⟩
  | cons ax rest ih =>
    have hsep : ¬ separatedOn va vb ax := h ax (List.mem_cons_self ax rest)
    have hrest : ∀ x ∈ rest, ¬ separatedOn va vb x :=
      fun x hx => h x (List.mem_cons_of_mem _ hx)
    rw [satLoop_cons_min va vb ax rest m (some n) hsep]
    by_cases hov : overlapOn va vb ax < m
    · rw [if_pos hov]
      obtain ⟨m2, n2, heq, hle, hall, hor⟩ := ih (overlapOn va vb ax) ax hrest
      refine ⟨m2, n2, heq, le_trans hle (le_of_lt hov), ?_, ?_⟩
      · intro x hx
        rcases List.mem_cons.mp hx with rfl | hx2
        · exact hle
        · exact hall x hx2
      · rcases hor with ⟨h1, h2⟩ | ⟨x, hx, h1, h2⟩
        · exact Or.inr ⟨ax, List.mem_cons_self ax rest, h1, h2⟩
        · exact Or.inr ⟨x, List.mem_cons_of_mem _ hx, h1, h2⟩
    · rw [if_neg hov]
      obtain ⟨m2, n2, heq, hle, hall, hor⟩ := ih m n hrest
      refine ⟨m2, n2, heq, hle, ?_, ?_⟩
      · intro x hx
        rcases List.mem_cons.mp hx with rfl | hx2
        · exact le_trans hle (not_lt.mp hov)
        · exact hall x hx2
      · rcases hor with ⟨h1, h2⟩ | ⟨x, hx, h1, h2⟩
        · exact Or.inl ⟨h1, h2⟩
        · exact Or.inr ⟨x, List.mem_cons_of_mem _ hx, h1, h2⟩

/-- Claim C2: with at least one candidate axis (non-degenerate polygons),
`check_collision_sat` reports no collision — `(False, None, 0)` — exactly when
some candidate axis (an edge normal of A or of B as the code builds them)
separates the two projection sets; and when no axis separates, it reports a
collision whose depth is the smallest interval overlap over all candidate
axes and whose normal is a minimum-overlap axis, possibly sign-flipped so
that it points from A toward B (`dot(B.pos - A.pos, normal) ≥ 0`). -/
theorem check_collision_sat_spec (ν : Vec → ℚ) (cosF sinF : ℚ → ℚ) (a b : Body)
    (hax : satAxes ν cosF sinF a b ≠ []) :
    (check_collision_sat ν cosF sinF a b = some (false, none, 0) ↔
      ∃ ax ∈ satAxes ν cosF sinF a b,
        separatedOn (get_world_vertices cosF sinF a)
          (get_world_vertices cosF sinF b) ax) ∧
    ((∀ ax ∈ satAxes ν cosF sinF a b,
        ¬ separatedOn (get_world_vertices cosF sinF a)
          (get_world_vertices cosF sinF b) ax) →
      ∃ n d, check_collision_sat ν cosF sinF a b = some (true, some n, d) ∧
        (∀ ax ∈ satAxes ν cosF sinF a b,
          d ≤ overlapOn (get_world_vertices cosF sinF a)
            (get_world_vertices cosF sinF b) ax) ∧
        (∃ ax ∈ satAxes ν cosF sinF a b,
          d = overlapOn (get_world_vertices cosF sinF a)
            (get_world_vertices cosF sinF b) ax ∧ (n = ax ∨ n = vneg ax)) ∧
        0 ≤ dot (vsub b.pos a.pos) n) := by
  constructor
  · constructor
    · intro hret
      by_contra hno
      push_neg at hno
      rcases hx : satAxes ν cosF sinF a b with _ | ⟨ax, rest⟩
      · exact hax hx
      · rw [hx] at hno
        have hsep : ¬ separatedOn (get_world_vertices cosF sinF a)
            (get_world_vertices cosF sinF b) ax :=
          hno ax (List.mem_cons_self ax rest)
        have hrest : ∀ x ∈ rest, ¬ separatedOn (get_world_vertices cosF sinF a)
            (get_world_vertices cosF sinF b) x :=
          fun x hxm => hno x (List.mem_cons_of_mem _ hxm)
        obtain ⟨m2, n2, heq, -, -, -⟩ :=
          satLoop_min_spec (get_world_vertices cosF sinF a)
            (get_world_vertices cosF sinF b) rest
            (overlapOn (get_world_vertices cosF sinF a)
              (get_world_vertices cosF sinF b) ax) ax hrest
        rw [check_collision_sat, hx] at hret
        rw [satLoop_cons_inf _ _ ax rest none hsep, heq] at hret
        simp at hret
    · intro hex
      have hnone : satLoop (get_world_vertices cosF sinF a)
          (get_world_vertices cosF sinF b) (satAxes ν cosF sinF a b)
          none none = none :=
        (satLoop_eq_none_iff _ _ _ none none).mpr hex
      rw [check_collision_sat, hnone]
  · intro hno
    rcases hx : satAxes ν cosF sinF a b with _ | ⟨ax, rest⟩
    · exact absurd hx hax
    · rw [hx] at hno
      have hsep : ¬ separatedOn (get_world_vertices cosF sinF a)
          (get_world_vertices cosF sinF b) ax :=
        hno ax (List.mem_cons_self ax rest)
      have hrest : ∀ x ∈ rest, ¬ separatedOn (get_world_vertices cosF sinF a)
          (get_world_vertices cosF sinF b) x :=
        fun x hxm => hno x (List.mem_cons_of_mem _ hxm)
      obtain ⟨m2, n2, heq, hle, hall, hor⟩ :=
        satLoop_min_spec (get_world_vertices cosF sinF a)
          (get_world_vertices cosF sinF b) rest
          (overlapOn (get_world_vertices cosF sinF a)
            (get_world_vertices cosF sinF b) ax) ax hrest
      have hloop : satLoop (get_world_vertices cosF sinF a)
          (get_world_vertices cosF sinF b) (satAxes ν cosF sinF a b)
          none none = some (some m2, some n2) := by
        rw [hx, satLoop_cons_inf _ _ ax rest none hsep, heq]
      have hbound : ∀ x ∈ ax :: rest,
          m2 ≤ overlapOn (get_world_vertices cosF sinF a)
            (get_world_vertices cosF sinF b) x := by
        intro x hxm
        rcases List.mem_cons.mp hxm with rfl | hx2
        · exact hle
        · exact hall x hx2
      have hattain : ∃ x ∈ ax :: rest,
          m2 = overlapOn (get_world_vertices cosF sinF a)
            (get_world_vertices cosF sinF b) x ∧ n2 = x := by
        rcases hor with ⟨h1, h2⟩ | ⟨x, hxm, h1, h2⟩
        · exact ⟨ax, List.mem_cons_self ax rest, h1, h2⟩
        · exact ⟨x, List.mem_cons_of_mem _ hxm, h1, h2⟩
      by_cases hflip : dot (vsub b.pos a.pos) n2 < 0
      · refine ⟨vneg n2, m2, ?_, hbound, ?_, ?_⟩
        · rw [check_collision_sat, hloop]
          simp only
          rw [if_pos hflip]
        · obtain ⟨x, hxm, h1, h2⟩ := hattain
          exact ⟨x, hxm, h1, Or.inr (by rw [h2])⟩
        · rw [dot_vneg_right]
          linarith
      · refine ⟨n2, m2, ?_, hbound, ?_, ?_⟩
        · rw [check_collision_sat, hloop]
          simp only
          rw [if_neg hflip]
        · obtain ⟨x, hxm, h1, h2⟩ := hattain
          exact ⟨x, hxm, h1, Or.inl h2⟩
        · exact not_lt.mp hflip

/-- Witness for C2 on the overlapping axis-aligned squares
`squareA`/`squareB`. -/
theorem check_collision_sat_spec_witness :
    (check_collision_sat normOne cosOne sinZero squareA squareB =
        some (false, none, 0) ↔
      ∃ ax ∈ satAxes normOne cosOne sinZero squareA squareB,
        separatedOn (get_world_vertices cosOne sinZero squareA)
          (get_world_vertices cosOne sinZero squareB) ax) ∧
    ((∀ ax ∈ satAxes normOne cosOne sinZero squareA squareB,
        ¬ separatedOn (get_world_vertices cosOne sinZero squareA)
          (get_world_vertices cosOne sinZero squareB) ax) →
      ∃ n d, check_collision_sat normOne cosOne sinZero squareA squareB =
          some (true, some n, d) ∧
        (∀ ax ∈ satAxes normOne cosOne sinZero squareA squareB,
          d ≤ overlapOn (get_world_vertices cosOne sinZero squareA)
            (get_world_vertices cosOne sinZero squareB) ax) ∧
        (∃ ax ∈ satAxes normOne cosOne sinZero squareA squareB,
          d = overlapOn (get_world_vertices cosOne sinZero squareA)
            (get_world_vertices cosOne sinZero squareB) ax ∧
            (n = ax ∨ n = vneg ax)) ∧
        0 ≤ dot (vsub squareB.pos squareA.pos) n) :=
  check_collision_sat_spec normOne cosOne sinZero squareA squareB
    (by
      norm_num [satAxes, get_axes, get_world_vertices, squareA, squareB,
        normOne, cosOne, sinZero, vadd, vsub, smul, List.range_succ]
      simp)

end Theorems

end Billiards
